import Mathlib

/-!
Shallow embedding of the persistence core of `scqubits/core/storage.py`
(classes `DataStore` and `SpectrumData`).

A Python object of these classes is modelled by its `__dict__`: an
insertion-ordered association list from attribute names to values.
Python values that occur in this layer (strings, numbers, ndarrays,
dicts, the `None` sentinel, and the `dict_keys` view produced by
`kwargs.keys()`) are modelled by the inductive type `Value`.
Numeric data is modelled over `Int`.
-/

/-- Model of the Python values handled by the storage layer:
`None`, numbers, strings, ndarrays/lists (`vArr`), dicts (`vDict`,
insertion-ordered association lists), and the `dict_keys` view that
`DataStore.__init__` stores in `data_names` (`vNames`). -/
inductive Value where
  | vNone : Value
  | vInt : Int → Value
  | vStr : String → Value
  | vArr : List Value → Value
  | vDict : List (String × Value) → Value
  | vNames : List String → Value

/-- A Python dict with string keys: insertion-ordered association list.
Python dicts never hold a key twice; theorems that depend on key
uniqueness carry it as a `Nodup` hypothesis. -/
abbrev Dict := List (String × Value)

/-- A `DataStore` (or `SpectrumData`) instance, modelled by its `__dict__`. -/
abbrev DataStore := Dict

/-- `d[k]` / `getattr`: the value at the first entry with key `k`. -/
def dictLookup : Dict → String → Option Value
  | [], _ => none
  | p :: d, k => if p.1 = k then some p.2 else dictLookup d k

/-- Whether key `k` is present. -/
def hasKey : Dict → String → Bool
  | [], _ => false
  | p :: d, k => if p.1 = k then true else hasKey d k

/-- `d[k] = v` / `setattr`: overwrite the existing entry in place
(keeping its position, as Python dicts do), otherwise append. -/
def dictSet : Dict → String → Value → Dict
  | [], k, v => [(k, v)]
  | p :: d, k, v => if p.1 = k then (k, v) :: d else p :: dictSet d k v

/-- Removal of the entry with key `k` (used by `dict.pop`). -/
def dictErase : Dict → String → Dict
  | [], _ => []
  | p :: d, k => if p.1 = k then dictErase d k else p :: dictErase d k

/-- `d.pop(k)`: `none` models the `KeyError` raised when `k` is absent. -/
def dictPop (d : Dict) (k : String) : Option (Value × Dict) :=
  (dictLookup d k).map (fun v => (v, dictErase d k))

/-- `d.update(e)`: set every entry of `e` into `d`, in order. -/
def dictUpdate (d e : Dict) : Dict :=
  e.foldl (fun acc p => dictSet acc p.1 p.2) d

/-- The ordered key list of a dict. -/
def dictKeys (d : Dict) : List String :=
  d.map (fun p => p.1)

/-- Test used below for `process_metadata`'s flattening rule. -/
def Value.isDictB : Value → Bool
  | .vDict _ => true
  | _ => false

/-- Python's `key in names` for a list of names (`dict_keys` view). -/
def namesContains : List String → String → Bool
  | [], _ => false
  | n :: ns, k => if n = k then true else namesContains ns k

/-- Python's `key in container` for the containers that can sit in
`data_names`: a `dict_keys` view, a list/array (equality against its
string elements), a dict (key test), or a string (substring test). -/
def memB : Value → String → Bool
  | .vNames l, k => namesContains l k
  | .vArr l, k => l.any (fun x => match x with | .vStr s => s == k | _ => false)
  | .vDict d, k => hasKey d k
  | .vStr s, k => if k = "" then true else decide (2 ≤ (s.splitOn k).length)
  | _, _ => false

/-- Values for which Python's `in` test is defined; `key in v` for the
remaining values raises `TypeError`. -/
def isContainer : Value → Bool
  | .vNames _ => true
  | .vArr _ => true
  | .vDict _ => true
  | .vStr _ => true
  | _ => false

/-- Modelled from the spec: `process_metadata` lives in
`scqubits/utils/misc.py`, which is not part of the excerpted sources.
Following the spec, values of `system_params` that are themselves
mappings are recursively flattened into the flat namespace (with no
collision resolution); all other values pass through unchanged. -/
def process_metadata : Dict → Dict
  | [] => []
  | (_, Value.vDict d) :: rest => process_metadata d ++ process_metadata rest
  | (k, v) :: rest => (k, v) :: process_metadata rest

/-- Modelled from the spec: `value_not_none` lives in
`scqubits/utils/misc.py`, which is not part of the excerpted sources.
It is the filter applied to `(name, value)` items at serialization
time; per the spec, a field holding the absent sentinel (`None`) is
excluded from the serialized dataset list. -/
def value_not_none (p : String × Value) : Bool :=
  match p.2 with
  | Value.vNone => false
  | _ => true

/-- Modelled from the spec: `convert_to_ndarray` lives in
`scqubits/utils/misc.py`, which is not part of the excerpted sources.
Per the spec it converts each surviving value to a dense array
representation; that conversion is content-preserving on the values
modelled here, so at this level of abstraction it is the identity. -/
def convert_to_ndarray (v : Value) : Value := v

/-- Python's `len`; `none` models the `TypeError` on unsized values. -/
def pyLen : Value → Option Nat
  | .vStr s => some s.length
  | .vArr l => some l.length
  | .vDict d => some d.length
  | .vNames l => some l.length
  | _ => none

/-- The keyword names already taken by the positional parameters of
`DataStore.__init__`; passing any of them again through `**kwargs`
raises `TypeError: got multiple values for argument`. -/
def reservedNames : List String := ["param_name", "param_vals", "system_params"]

/-- `DataStore.__init__(param_name, param_vals, system_params, **kwargs)`:
binds the three fixed attributes, stores `kwargs.keys()` in
`data_names`, then `setattr`s every keyword pair in order.  `none`
models the `TypeError` raised at the call site when a keyword re-names
one of the positional parameters. -/
def DataStore.init (pn pv sp : Value) (kwargs : Dict) : Option DataStore :=
  if kwargs.any (fun p => namesContains reservedNames p.1) then none
  else some (kwargs.foldl (fun acc p => dictSet acc p.1 p.2)
    [("param_name", pn), ("param_vals", pv), ("system_params", sp),
     ("data_names", Value.vNames (dictKeys kwargs))])

/-- `DataStore.param_count`: `len(self.param_vals)`. -/
def DataStore.param_count (s : DataStore) : Option Nat :=
  (dictLookup s "param_vals").bind pyLen

/-- `DataStore._get_metadata_dict`: `{'param_name': ..., 'param_vals': ...}`
updated with `process_metadata(self.system_params)`.  `none` models an
`AttributeError`/`TypeError` on a store whose `system_params` is
missing or is not a mapping. -/
def DataStore._get_metadata_dict (s : DataStore) : Option Dict :=
  (dictLookup s "param_name").bind (fun pn =>
  (dictLookup s "param_vals").bind (fun pv =>
  (dictLookup s "system_params").bind (fun sp =>
    match sp with
    | Value.vDict d =>
        some (dictUpdate [("param_name", pn), ("param_vals", pv)] (process_metadata d))
    | _ => none)))

/-- `DataStore._get_data_dict`: the sub-dict of `self.__dict__` whose
keys satisfy `key in self.data_names`.  `none` models the
`AttributeError`/`TypeError` when `data_names` is missing or is not a
container. -/
def DataStore._get_data_dict (s : DataStore) : Option Dict :=
  (dictLookup s "data_names").bind (fun dn =>
    if isContainer dn then some (s.filter (fun p => memB dn p.1)) else none)

/-- `DataStore._serialize(writer)`: hands the writer the metadata dict
(`writer.create_meta`) and then, for every non-`None` item of the data
dict, one named dataset (`writer.add_dataset(name,
convert_to_ndarray(data))`).  The abstract writer is modelled by the
triple it receives: `(metadata_dict, dataset names, dataset arrays)` —
exactly the triple the abstract reader later returns. -/
def DataStore._serialize (s : DataStore) : Option (Dict × List String × List Value) :=
  (DataStore._get_metadata_dict s).bind (fun md =>
  (DataStore._get_data_dict s).bind (fun dd =>
    let written := dd.filter value_not_none
    some (md, written.map (fun p => p.1),
          written.map (fun p => convert_to_ndarray p.2))))

/-- The object state carried by a `DataStore.set_from_data` call:
`Except.error s` means the call raised with the instance left in state
`s`; `Except.ok s` is normal return. -/
def exceptState : Except DataStore DataStore → DataStore
  | .ok s => s
  | .error s => s

/-- The `setattr` loop of `DataStore.set_from_data`:
`for index, attribute in enumerate(name_list): setattr(self, attribute,
data_list[index])`.  Running out of `data_list` entries raises
`IndexError` with the attributes bound so far left in place. -/
def setattrLoop : DataStore → List String → List Value → Except DataStore DataStore
  | s, [], _ => .ok s
  | s, _ :: _, [] => .error s
  | s, n :: ns, v :: vs => setattrLoop (dictSet s n v) ns vs

/-- `DataStore.set_from_data(metadata_dict, name_list, data_list)`:
pops `param_name` and `param_vals` out of the metadata dict and rebinds
them on `self`, assigns the remaining dict to `self.system_params`,
then `setattr`s each `(name, data)` pair.  Each `pop` may raise
`KeyError`; attributes already rebound stay rebound. -/
def DataStore.set_from_data (s : DataStore) (md : Dict) (names : List String)
    (data : List Value) : Except DataStore DataStore :=
  match dictPop md "param_name" with
  | none => .error s
  | some (pn, md1) =>
    let s1 := dictSet s "param_name" pn
    match dictPop md1 "param_vals" with
    | none => .error s1
    | some (pv, md2) =>
      let s2 := dictSet (dictSet s1 "param_vals" pv) "system_params" (Value.vDict md2)
      setattrLoop s2 names data

/-- The dict comprehension
`{name: data_list[i] for i, name in enumerate(name_list)}` of
`DataStore._init_from_data`; `none` models the `IndexError` when
`data_list` is shorter than `name_list`. -/
def zipToDict (names : List String) (data : List Value) : Option Dict :=
  if names.length ≤ data.length then
    some ((names.zip data).foldl (fun acc p => dictSet acc p.1 p.2) [])
  else none

/-- `DataStore._init_from_data(metadata_dict, name_list, data_list)` with
`cls = DataStore`: pops `param_name` and `param_vals`, treats the rest
of the metadata dict as `system_params`, zips the two lists into a
dict and calls the constructor with it as keyword fields. -/
def DataStore._init_from_data (md : Dict) (names : List String)
    (data : List Value) : Option DataStore :=
  match dictPop md "param_name" with
  | none => none
  | some (pn, md1) =>
    match dictPop md1 "param_vals" with
    | none => none
    | some (pv, md2) =>
      match zipToDict names data with
      | none => none
      | some dd => DataStore.init pn pv (Value.vDict md2) dd

/-- The keyword parameters of `SpectrumData.__init__` that can be
supplied through the zipped data dict. -/
def spectrumDataFields : List String := ["energy_table", "state_table", "matrixelem_table"]

/-- `SpectrumData.__init__(param_name, param_vals, energy_table,
system_params, state_table=None, matrixelem_table=None)`: calls
`DataStore.__init__` with NO keyword fields (so `data_names` is the
keys view of an empty dict), then binds the three tables as plain
attributes. -/
def SpectrumData.init (pn pv et sp st mt : Value) : DataStore :=
  dictSet (dictSet (dictSet
    [("param_name", pn), ("param_vals", pv), ("system_params", sp),
     ("data_names", Value.vNames [])]
    "energy_table" et) "state_table" st) "matrixelem_table" mt

/-- `DataStore._init_from_data` with `cls = SpectrumData`: the zipped
dict is matched against the keyword parameters of
`SpectrumData.__init__`.  `none` models the `TypeError` raised when a
zipped name re-names a positional parameter, is not a parameter of
`SpectrumData.__init__`, or when the required `energy_table` is
missing. -/
def SpectrumData._init_from_data (md : Dict) (names : List String)
    (data : List Value) : Option DataStore :=
  match dictPop md "param_name" with
  | none => none
  | some (pn, md1) =>
    match dictPop md1 "param_vals" with
    | none => none
    | some (pv, md2) =>
      match zipToDict names data with
      | none => none
      | some dd =>
        if dd.any (fun p => namesContains reservedNames p.1) then none
        else if !(dd.all (fun p => namesContains spectrumDataFields p.1)) then none
        else match dictLookup dd "energy_table" with
          | none => none
          | some et =>
            some (SpectrumData.init pn pv et (Value.vDict md2)
              ((dictLookup dd "state_table").getD Value.vNone)
              ((dictLookup dd "matrixelem_table").getD Value.vNone))

/-- Number of columns of a 2-D array modelled as a list of rows. -/
def numCols (a : List (List Int)) : Nat := (a.headD []).length

/-- `a[:, 0]` on a 2-D numpy array: the first entry of every row;
`none` models the `IndexError` when a row has no column 0. -/
def npCol0 (a : List (List Int)) : Option (List Int) :=
  if a.all (fun r => decide (0 < r.length)) then some (a.map (fun r => r.headD 0))
  else none

/-- Numpy broadcasting of `a - v` for a 2-D array `a` of shape `(n, m)`
and a 1-D array `v`: `v` aligns with the trailing (column) axis, so it
is accepted only when `v` has length `m` (elementwise along each row)
or length `1` (a broadcast scalar); any other length raises
`ValueError: operands could not be broadcast together`. -/
def npSub2d1d (a : List (List Int)) (v : List Int) : Option (List (List Int)) :=
  if v.length = numCols a then
    some (a.map (fun r => List.zipWith (fun x y => x - y) r v))
  else if v.length = 1 then
    some (a.map (fun r => r.map (fun x => x - v.headD 0)))
  else none

/-- `SpectrumData.subtract_ground`:
`self.energy_table -= self.energy_table[:, 0]`, i.e. extract column 0
and subtract it from the table under numpy broadcasting. -/
def SpectrumData.subtract_ground (et : List (List Int)) : Option (List (List Int)) :=
  (npCol0 et).bind (npSub2d1d et)

/-- The transform the spec ascribes to `subtract_ground`:
`energy_table[i] -= energy_table[i][0]` for every sweep index `i`
(subtract each row's own ground energy from that row). -/
def subtractGroundRowwise (et : List (List Int)) : List (List Int) :=
  et.map (fun r => r.map (fun x => x - r.headD 0))

/-! ### Association-list lemmas -/

theorem namesContains_iff {l : List String} {k : String} :
    namesContains l k = true ↔ k ∈ l := by
  induction l with
  | nil => simp [namesContains]
  | cons n ns ih =>
    simp only [namesContains, List.mem_cons]
    by_cases h : n = k
    · simp [h]
    · rw [if_neg h]
      rw [ih]
      constructor
      · exact Or.inr
      · rintro (hc | hc)
        · exact absurd hc.symm h
        · exact hc

theorem dictLookup_eq_none_of_not_mem {d : Dict} {k : String}
    (h : k ∉ dictKeys d) : dictLookup d k = none := by
  induction d with
  | nil => rfl
  | cons p rest ih =>
    simp only [dictKeys, List.map_cons, List.mem_cons, not_or] at h
    simp only [dictLookup]
    rw [if_neg (fun hc => h.1 hc.symm)]
    exact ih h.2

theorem hasKey_eq_false_of_not_mem {d : Dict} {k : String}
    (h : k ∉ dictKeys d) : hasKey d k = false := by
  induction d with
  | nil => rfl
  | cons p rest ih =>
    simp only [dictKeys, List.map_cons, List.mem_cons, not_or] at h
    simp only [hasKey]
    rw [if_neg (fun hc => h.1 hc.symm)]
    exact ih h.2

theorem dictSet_of_not_mem {d : Dict} {k : String} (v : Value)
    (h : k ∉ dictKeys d) : dictSet d k v = d ++ [(k, v)] := by
  induction d with
  | nil => rfl
  | cons p rest ih =>
    simp only [dictKeys, List.map_cons, List.mem_cons, not_or] at h
    simp only [dictSet]
    rw [if_neg (fun hc => h.1 hc.symm)]
    simp only [List.cons_append, List.cons.injEq, true_and]
    exact ih h.2

theorem dictErase_of_not_mem {d : Dict} {k : String}
    (h : k ∉ dictKeys d) : dictErase d k = d := by
  induction d with
  | nil => rfl
  | cons p rest ih =>
    simp only [dictKeys, List.map_cons, List.mem_cons, not_or] at h
    simp only [dictErase]
    rw [if_neg (fun hc => h.1 hc.symm)]
    simp only [List.cons.injEq, true_and]
    exact ih h.2

theorem mem_dictKeys_dictErase {d : Dict} {k k' : String}
    (h : k' ∈ dictKeys (dictErase d k)) : k' ∈ dictKeys d := by
  induction d with
  | nil => exact h
  | cons p rest ih =>
    simp only [dictKeys, List.map_cons, List.mem_cons]
    by_cases hpk : p.1 = k
    · exact Or.inr (ih (by simpa [dictErase, hpk] using h))
    · simp only [dictErase, if_neg hpk, dictKeys, List.map_cons, List.mem_cons] at h
      rcases h with h | h
      · exact Or.inl h
      · exact Or.inr (ih h)

theorem dictLookup_dictSet_self (d : Dict) (k : String) (v : Value) :
    dictLookup (dictSet d k v) k = some v := by
  induction d with
  | nil => simp [dictSet, dictLookup]
  | cons p rest ih =>
    by_cases hpk : p.1 = k
    · simp [dictSet, hpk, dictLookup]
    · simp only [dictSet, if_neg hpk, dictLookup, if_neg hpk]
      exact ih

theorem dictLookup_dictSet_ne (d : Dict) {k k' : String} (v : Value)
    (h : k ≠ k') : dictLookup (dictSet d k v) k' = dictLookup d k' := by
  induction d with
  | nil => simp [dictSet, dictLookup, h]
  | cons p rest ih =>
    by_cases hpk : p.1 = k
    · simp only [dictSet, if_pos hpk, dictLookup, if_neg h, if_neg (hpk ▸ h : p.1 ≠ k')]
    · simp only [dictSet, if_neg hpk, dictLookup]
      by_cases hpk' : p.1 = k'
      · simp [hpk']
      · simp only [if_neg hpk']
        exact ih

theorem dictUpdate_lookup_not_mem {e : Dict} {k : String} (d : Dict)
    (h : k ∉ dictKeys e) : dictLookup (dictUpdate d e) k = dictLookup d k := by
  induction e generalizing d with
  | nil => rfl
  | cons p rest ih =>
    simp only [dictKeys, List.map_cons, List.mem_cons, not_or] at h
    rw [show dictUpdate d (p :: rest) = dictUpdate (dictSet d p.1 p.2) rest from rfl]
    rw [ih _ h.2]
    exact dictLookup_dictSet_ne d p.2 (fun hc => h.1 hc.symm)

theorem dictUpdate_lookup_mem {e : Dict} {k : String} (d : Dict)
    (h : k ∈ dictKeys e) : ∃ v, dictLookup (dictUpdate d e) k = some v := by
  induction e generalizing d with
  | nil => simp [dictKeys] at h
  | cons p rest ih =>
    rw [show dictUpdate d (p :: rest) = dictUpdate (dictSet d p.1 p.2) rest from rfl]
    by_cases hmem : k ∈ dictKeys rest
    · exact ih _ hmem
    · simp only [dictKeys, List.map_cons, List.mem_cons] at h
      rcases h with h | h
      · subst h
        refine ⟨p.2, ?_⟩
        rw [dictUpdate_lookup_not_mem _ hmem]
        exact dictLookup_dictSet_self d p.1 p.2
      · exact absurd h hmem

theorem dictUpdate_append {e : Dict} (d : Dict)
    (hdisj : ∀ k ∈ dictKeys e, k ∉ dictKeys d) (hnd : (dictKeys e).Nodup) :
    dictUpdate d e = d ++ e := by
  induction e generalizing d with
  | nil => simp [dictUpdate]
  | cons p rest ih =>
    simp only [dictKeys, List.map_cons, List.nodup_cons] at hnd
    rw [show dictUpdate d (p :: rest) = dictUpdate (dictSet d p.1 p.2) rest from rfl]
    rw [dictSet_of_not_mem p.2 (hdisj p.1 (by simp [dictKeys]))]
    rw [ih (d ++ [(p.1, p.2)])
      (by
        intro k hk
        simp only [dictKeys, List.map_append, List.mem_append, not_or,
          List.map_cons, List.map_nil, List.mem_singleton]
        refine ⟨hdisj k (by simp only [dictKeys, List.map_cons, List.mem_cons]; exact Or.inr hk), ?_⟩
        intro hc
        exact hnd.1 (hc ▸ hk))
      hnd.2]
    simp

theorem dictLookup_eq_some_iff_mem {d : Dict} {k : String} {v : Value}
    (hnd : (dictKeys d).Nodup) : dictLookup d k = some v ↔ (k, v) ∈ d := by
  induction d with
  | nil => simp [dictLookup]
  | cons p rest ih =>
    obtain ⟨pk, pv⟩ := p
    simp only [dictKeys, List.map_cons, List.nodup_cons] at hnd
    simp only [dictLookup, List.mem_cons]
    by_cases hpk : pk = k
    · subst hpk
      rw [if_pos rfl]
      constructor
      · intro h
        rw [Option.some_inj] at h
        exact Or.inl (by rw [h])
      · rintro (h | h)
        · simp only [Prod.mk.injEq] at h
          rw [h.2]
        · exact absurd (List.mem_map_of_mem (fun q => q.1) h) hnd.1
    · rw [if_neg hpk, ih hnd.2]
      constructor
      · exact Or.inr
      · rintro (h | h)
        · exact absurd (congrArg Prod.fst h).symm hpk
        · exact h

theorem value_not_none_iff (p : String × Value) :
    value_not_none p = true ↔ p.2 ≠ Value.vNone := by
  obtain ⟨k, v⟩ := p
  cases v <;> simp [value_not_none]

theorem process_metadata_flat {d : Dict}
    (h : ∀ p ∈ d, p.2.isDictB = false) : process_metadata d = d := by
  induction d with
  | nil => simp [process_metadata]
  | cons p rest ih =>
    obtain ⟨k, v⟩ := p
    have hv := h (k, v) (by simp)
    have hrest : process_metadata rest = rest :=
      ih (fun q hq => h q (List.mem_cons_of_mem _ hq))
    cases v with
    | vDict d2 => simp [Value.isDictB] at hv
    | vNone => simp [process_metadata, hrest]
    | vInt n => simp [process_metadata, hrest]
    | vStr t => simp [process_metadata, hrest]
    | vArr l => simp [process_metadata, hrest]
    | vNames l => simp [process_metadata, hrest]

theorem namesContains_eq_false {l : List String} {k : String}
    (h : k ∉ l) : namesContains l k = false := by
  cases hc : namesContains l k
  · rfl
  · exact absurd (namesContains_iff.mp hc) h

theorem filter_eq_nil_of_all_false {α : Type} {p : α → Bool} {l : List α}
    (h : ∀ a ∈ l, p a = false) : l.filter p = [] := by
  induction l with
  | nil => rfl
  | cons a rest ih =>
    rw [List.filter_cons, if_neg (by simp [h a (List.mem_cons_self a rest)])]
    exact ih (fun b hb => h b (List.mem_cons_of_mem _ hb))

theorem filter_append_keep_right {α : Type} {p : α → Bool} {l1 l2 : List α}
    (h1 : ∀ a ∈ l1, p a = false) (h2 : ∀ a ∈ l2, p a = true) :
    (l1 ++ l2).filter p = l2 := by
  rw [List.filter_append, filter_eq_nil_of_all_false h1, List.filter_eq_self.mpr h2,
    List.nil_append]

theorem zip_keys_vals (d : Dict) : (dictKeys d).zip (d.map (fun p => p.2)) = d := by
  induction d with
  | nil => rfl
  | cons p rest ih =>
    simp only [dictKeys, List.map_cons, List.zip_cons_cons]
    exact congrArg (fun t => p :: t) ih

theorem zipToDict_eq {names : List String} {data : List Value}
    (hnd : names.Nodup) (hlen : names.length ≤ data.length) :
    zipToDict names data = some (names.zip data) := by
  unfold zipToDict
  rw [if_pos hlen]
  congr 1
  rw [show (names.zip data).foldl (fun acc p => dictSet acc p.1 p.2) []
        = dictUpdate [] (names.zip data) from rfl]
  rw [dictUpdate_append [] (by simp [dictKeys]) ?_]
  · simp
  · rw [show dictKeys (names.zip data) = (names.zip data).map Prod.fst from rfl]
    rw [List.map_fst_zip _ _ hlen]
    exact hnd

theorem setattrLoop_lookup_not_mem (s : DataStore) (names : List String)
    (data : List Value) (k : String) (h : k ∉ names) :
    dictLookup (exceptState (setattrLoop s names data)) k = dictLookup s k := by
  induction names generalizing s data with
  | nil => rfl
  | cons n ns ih =>
    cases data with
    | nil => rfl
    | cons v vs =>
      rw [show setattrLoop s (n :: ns) (v :: vs) = setattrLoop (dictSet s n v) ns vs from rfl]
      rw [ih (dictSet s n v) vs (fun hc => h (List.mem_cons_of_mem _ hc))]
      exact dictLookup_dictSet_ne s v (fun hc => h (hc ▸ List.mem_cons_self n ns))

/-! ### Claim theorems -/

/-- C2: the spec claims `subtract_ground()` performs
`energy_table[i] -= energy_table[i][0]` for every sweep index `i` and
maps `[[1,2,3],[4,5,6]]` to `[[0,1,2],[0,1,2]]`.  The code instead
computes `energy_table -= energy_table[:, 0]`, whose broadcast aligns
the extracted column with the level axis: on the spec's own example it
raises a broadcast `ValueError` (modelled by `none`), while the
row-wise transform the spec describes yields `[[0,1,2],[0,1,2]]`. -/
theorem subtract_ground_broadcast_mismatch :
    SpectrumData.subtract_ground [[1, 2, 3], [4, 5, 6]] = none
    ∧ subtractGroundRowwise [[1, 2, 3], [4, 5, 6]] = [[0, 1, 2], [0, 1, 2]] :=
  ⟨rfl, rfl⟩

/-- C10: `param_count()` returns `len(param_vals)` whenever
`param_vals` is a sized sequence, for any length including zero. -/
theorem param_count_eq_len_param_vals (s : DataStore) (l : List Value)
    (h : dictLookup s "param_vals" = some (Value.vArr l)) :
    DataStore.param_count s = some l.length := by
  rw [DataStore.param_count, h]
  rfl

/-- Witness for C10 at a zero-length sweep. -/
theorem param_count_eq_len_param_vals_witness :
    dictLookup [("param_name", Value.vStr "x"), ("param_vals", Value.vArr []),
        ("system_params", Value.vDict []), ("data_names", Value.vNames [])] "param_vals"
      = some (Value.vArr [])
    ∧ DataStore.param_count [("param_name", Value.vStr "x"), ("param_vals", Value.vArr []),
        ("system_params", Value.vDict []), ("data_names", Value.vNames [])] = some 0 :=
  ⟨rfl, param_count_eq_len_param_vals _ [] rfl⟩

/-- C5: constructing a new instance from a `(metadata_dict, name_list,
data_list)` triple whose metadata dict lacks `param_name` or
`param_vals` fails with a missing-key error (`dict.pop` raises
`KeyError`) and produces no object, for both the generic `DataStore`
path and the `SpectrumData` path. -/
theorem init_from_data_missing_key_fails (md : Dict) (names : List String)
    (data : List Value)
    (h : "param_name" ∉ dictKeys md ∨ "param_vals" ∉ dictKeys md) :
    DataStore._init_from_data md names data = none
    ∧ SpectrumData._init_from_data md names data = none := by
  rcases h with h | h
  · have hpop : dictPop md "param_name" = none := by
      rw [dictPop, dictLookup_eq_none_of_not_mem h]
      rfl
    constructor
    · unfold DataStore._init_from_data
      rw [hpop]
    · unfold SpectrumData._init_from_data
      rw [hpop]
  · cases hpop : dictPop md "param_name" with
    | none =>
      constructor
      · unfold DataStore._init_from_data
        rw [hpop]
      · unfold SpectrumData._init_from_data
        rw [hpop]
    | some pr =>
      obtain ⟨pn, md1⟩ := pr
      have hmd1 : md1 = dictErase md "param_name" := by
        rw [dictPop] at hpop
        cases hl : dictLookup md "param_name" with
        | none => rw [hl] at hpop; exact absurd hpop (by simp)
        | some v =>
          rw [hl] at hpop
          simp at hpop
          exact hpop.2.symm
      have h2 : "param_vals" ∉ dictKeys md1 := by
        rw [hmd1]
        intro hc
        exact h (mem_dictKeys_dictErase hc)
      have hpop2 : dictPop md1 "param_vals" = none := by
        rw [dictPop, dictLookup_eq_none_of_not_mem h2]
        rfl
      constructor
      · simp only [DataStore._init_from_data, hpop, hpop2]
      · simp only [SpectrumData._init_from_data, hpop, hpop2]

/-- Witness for C5: a metadata dict holding only `param_vals`. -/
theorem init_from_data_missing_key_fails_witness :
    ("param_name" ∉ dictKeys [("param_vals", Value.vArr [])]
      ∨ "param_vals" ∉ dictKeys [("param_vals", Value.vArr [])])
    ∧ DataStore._init_from_data [("param_vals", Value.vArr [])] [] [] = none
    ∧ SpectrumData._init_from_data [("param_vals", Value.vArr [])] [] [] = none :=
  ⟨Or.inl (by decide),
   init_from_data_missing_key_fails [("param_vals", Value.vArr [])] [] [] (Or.inl (by decide))⟩

/-- C6 counterexample: the claim says a failing populate-from-parts
call leaves every field of the existing object unmodified.  But
`set_from_data` rebinds `param_name` before popping `param_vals`: on a
metadata dict that holds `param_name` and lacks `param_vals`, the call
raises `KeyError` with `param_name` already rebound from `"x"` to
`"y"`. -/
theorem set_from_data_partial_rebind_cex :
    DataStore.set_from_data
      [("param_name", Value.vStr "x"), ("param_vals", Value.vArr []),
       ("system_params", Value.vDict []), ("data_names", Value.vNames [])]
      [("param_name", Value.vStr "y")] [] []
    = Except.error
      [("param_name", Value.vStr "y"), ("param_vals", Value.vArr []),
       ("system_params", Value.vDict []), ("data_names", Value.vNames [])]
    ∧ dictLookup
        [("param_name", Value.vStr "y"), ("param_vals", Value.vArr []),
         ("system_params", Value.vDict []), ("data_names", Value.vNames [])] "param_name"
      ≠ dictLookup
        [("param_name", Value.vStr "x"), ("param_vals", Value.vArr []),
         ("system_params", Value.vDict []), ("data_names", Value.vNames [])] "param_name" := by
  refine ⟨rfl, ?_⟩
  intro h
  rw [show dictLookup
        [("param_name", Value.vStr "y"), ("param_vals", Value.vArr []),
         ("system_params", Value.vDict []), ("data_names", Value.vNames [])] "param_name"
      = some (Value.vStr "y") from rfl,
      show dictLookup
        [("param_name", Value.vStr "x"), ("param_vals", Value.vArr []),
         ("system_params", Value.vDict []), ("data_names", Value.vNames [])] "param_name"
      = some (Value.vStr "x") from rfl] at h
  injection h with h1
  injection h1 with h2
  exact absurd h2 (by decide)

/-- C6 amended: a populate-from-parts failure leaves the object
entirely unmodified only when it happens before the first rebind, i.e.
when the metadata dict lacks `param_name`; later failures (missing
`param_vals`, or `data_list` shorter than `name_list`) can leave the
object partially rebound. -/
theorem set_from_data_unmodified_when_param_name_missing (s : DataStore) (md : Dict)
    (names : List String) (data : List Value)
    (h : "param_name" ∉ dictKeys md) :
    DataStore.set_from_data s md names data = Except.error s := by
  have hpop : dictPop md "param_name" = none := by
    rw [dictPop, dictLookup_eq_none_of_not_mem h]
    rfl
  unfold DataStore.set_from_data
  rw [hpop]

/-- Witness for the amended C6. -/
theorem set_from_data_unmodified_when_param_name_missing_witness :
    "param_name" ∉ dictKeys [("x", Value.vInt 1)]
    ∧ DataStore.set_from_data [("param_name", Value.vStr "x")] [("x", Value.vInt 1)] [] []
      = Except.error [("param_name", Value.vStr "x")] :=
  ⟨by decide,
   set_from_data_unmodified_when_param_name_missing
     [("param_name", Value.vStr "x")] [("x", Value.vInt 1)] [] [] (by decide)⟩

/-- C7 counterexample: the claim says populate-from-parts never
modifies `data_names`, regardless of which names appear in
`name_list`.  But the `setattr` loop binds whatever attribute name the
file supplies: with `name_list = ["data_names"]` the call succeeds and
rebinds `data_names` itself from the keys view to the dataset value. -/
theorem set_from_data_data_names_rebound_cex :
    DataStore.set_from_data
      [("param_name", Value.vStr "x"), ("param_vals", Value.vArr []),
       ("system_params", Value.vDict []), ("data_names", Value.vNames [])]
      [("param_name", Value.vStr "y"), ("param_vals", Value.vArr [Value.vInt 3])]
      ["data_names"] [Value.vInt 0]
    = Except.ok
      [("param_name", Value.vStr "y"), ("param_vals", Value.vArr [Value.vInt 3]),
       ("system_params", Value.vDict []), ("data_names", Value.vInt 0)]
    ∧ dictLookup
        [("param_name", Value.vStr "y"), ("param_vals", Value.vArr [Value.vInt 3]),
         ("system_params", Value.vDict []), ("data_names", Value.vInt 0)] "data_names"
      ≠ dictLookup
        [("param_name", Value.vStr "x"), ("param_vals", Value.vArr []),
         ("system_params", Value.vDict []), ("data_names", Value.vNames [])] "data_names" := by
  refine ⟨rfl, ?_⟩
  intro h
  rw [show dictLookup
        [("param_name", Value.vStr "y"), ("param_vals", Value.vArr [Value.vInt 3]),
         ("system_params", Value.vDict []), ("data_names", Value.vInt 0)] "data_names"
      = some (Value.vInt 0) from rfl,
      show dictLookup
        [("param_name", Value.vStr "x"), ("param_vals", Value.vArr []),
         ("system_params", Value.vDict []), ("data_names", Value.vNames [])] "data_names"
      = some (Value.vNames []) from rfl] at h
  injection h with h1
  exact Value.noConfusion h1

/-- C7 amended: populate-from-parts leaves `data_names` untouched
provided `"data_names"` is not itself one of the dataset names in
`name_list`; this holds on both the success and the failure paths. -/
theorem set_from_data_preserves_data_names (s : DataStore) (md : Dict)
    (names : List String) (data : List Value)
    (h : "data_names" ∉ names) :
    dictLookup (exceptState (DataStore.set_from_data s md names data)) "data_names"
      = dictLookup s "data_names" := by
  cases hp1 : dictPop md "param_name" with
  | none => simp only [DataStore.set_from_data, hp1, exceptState]
  | some pr1 =>
    obtain ⟨pn, md1⟩ := pr1
    cases hp2 : dictPop md1 "param_vals" with
    | none =>
      simp only [DataStore.set_from_data, hp1, hp2, exceptState]
      exact dictLookup_dictSet_ne s pn (by decide)
    | some pr2 =>
      obtain ⟨pv, md2⟩ := pr2
      simp only [DataStore.set_from_data, hp1, hp2]
      rw [setattrLoop_lookup_not_mem _ _ _ _ h]
      rw [dictLookup_dictSet_ne _ _ (by decide)]
      rw [dictLookup_dictSet_ne _ _ (by decide)]
      exact dictLookup_dictSet_ne s pn (by decide)

/-- Witness for the amended C7. -/
theorem set_from_data_preserves_data_names_witness :
    "data_names" ∉ (["a"] : List String)
    ∧ dictLookup (exceptState (DataStore.set_from_data
        [("param_name", Value.vStr "x"), ("param_vals", Value.vArr []),
         ("system_params", Value.vDict []), ("data_names", Value.vNames ["a"])]
        [("param_name", Value.vStr "y"), ("param_vals", Value.vArr [Value.vInt 3])]
        ["a"] [Value.vInt 7])) "data_names"
      = dictLookup
        [("param_name", Value.vStr "x"), ("param_vals", Value.vArr []),
         ("system_params", Value.vDict []), ("data_names", Value.vNames ["a"])] "data_names" :=
  ⟨by decide,
   set_from_data_preserves_data_names
     [("param_name", Value.vStr "x"), ("param_vals", Value.vArr []),
      ("system_params", Value.vDict []), ("data_names", Value.vNames ["a"])]
     [("param_name", Value.vStr "y"), ("param_vals", Value.vArr [Value.vInt 3])]
     ["a"] [Value.vInt 7] (by decide)⟩

/-- C3: a `SpectrumData` built through its own constructor passes no
keyword fields to `DataStore.__init__`, so its `data_names` is the
keys view of an empty dict; consequently `_serialize` hands the writer
the metadata record and zero named datasets — `energy_table` is never
written. -/
theorem spectrumData_data_names_empty_and_no_datasets
    (pn pv et st mt : Value) (sp : Dict) :
    dictLookup (SpectrumData.init pn pv et (Value.vDict sp) st mt) "data_names"
      = some (Value.vNames [])
    ∧ ∃ md, DataStore._serialize (SpectrumData.init pn pv et (Value.vDict sp) st mt)
        = some (md, [], []) :=
  ⟨rfl, ⟨dictUpdate [("param_name", pn), ("param_vals", pv)] (process_metadata sp), rfl⟩⟩

/-- C9 counterexample: the claim says a directly-constructed store's
`data_names` equals exactly the set of extra field names.  Python
accepts `data_names` itself as an extra keyword (it is not a positional
parameter), and the `setattr` loop then overwrites the keys view: the
constructed object's `data_names` is the supplied value `5`, not the
name set `{"data_names"}`. -/
theorem init_data_names_kwarg_cex :
    DataStore.init (Value.vStr "p") (Value.vArr []) (Value.vDict [])
        [("data_names", Value.vInt 5)]
      = some [("param_name", Value.vStr "p"), ("param_vals", Value.vArr []),
              ("system_params", Value.vDict []), ("data_names", Value.vInt 5)]
    ∧ Value.vInt 5 ≠ Value.vNames ["data_names"] :=
  ⟨rfl, fun h => Value.noConfusion h⟩

/-- C9 amended: for a store constructed directly with extra named
fields none of which is called `data_names`, `data_names` is exactly
the keys view of those fields, the three positional names are never
members of it (they cannot be passed as keywords), and every entry of
it is an attribute present on the object. -/
theorem init_data_names_exactly_kwarg_keys (pn pv sp : Value) (kwargs : Dict)
    (s : DataStore)
    (hdn : "data_names" ∉ dictKeys kwargs)
    (hs : DataStore.init pn pv sp kwargs = some s) :
    dictLookup s "data_names" = some (Value.vNames (dictKeys kwargs))
    ∧ (∀ r ∈ reservedNames, r ∉ dictKeys kwargs)
    ∧ (∀ n ∈ dictKeys kwargs, ∃ v, dictLookup s n = some v) := by
  by_cases hany : (kwargs.any (fun p => namesContains reservedNames p.1)) = true
  · rw [DataStore.init, if_pos hany] at hs
    exact absurd hs (by simp)
  · rw [DataStore.init, if_neg hany] at hs
    have hsEq : s = dictUpdate
        [("param_name", pn), ("param_vals", pv), ("system_params", sp),
         ("data_names", Value.vNames (dictKeys kwargs))] kwargs :=
      (Option.some_inj.mp hs).symm
    refine ⟨?_, ?_, ?_⟩
    · rw [hsEq, dictUpdate_lookup_not_mem _ hdn]
      rfl
    · intro r hr hrk
      apply hany
      rw [List.any_eq_true]
      obtain ⟨p, hp, hpr⟩ := List.mem_map.mp hrk
      exact ⟨p, hp, by rw [hpr]; exact namesContains_iff.mpr hr⟩
    · intro n hn
      rw [hsEq]
      exact dictUpdate_lookup_mem _ hn

/-- Witness for the amended C9: one extra field `a`. -/
theorem init_data_names_exactly_kwarg_keys_witness :
    "data_names" ∉ dictKeys [("a", Value.vInt 1)]
    ∧ (dictLookup
         [("param_name", Value.vStr "p"), ("param_vals", Value.vArr []),
          ("system_params", Value.vDict []), ("data_names", Value.vNames ["a"]),
          ("a", Value.vInt 1)] "data_names"
        = some (Value.vNames (dictKeys [("a", Value.vInt 1)]))
      ∧ (∀ r ∈ reservedNames, r ∉ dictKeys [("a", Value.vInt 1)])
      ∧ (∀ n ∈ dictKeys [("a", Value.vInt 1)], ∃ v, dictLookup
          [("param_name", Value.vStr "p"), ("param_vals", Value.vArr []),
           ("system_params", Value.vDict []), ("data_names", Value.vNames ["a"]),
           ("a", Value.vInt 1)] n = some v)) :=
  ⟨by decide,
   init_data_names_exactly_kwarg_keys (Value.vStr "p") (Value.vArr [])
     (Value.vDict []) [("a", Value.vInt 1)] _ (by decide) rfl⟩

/-- Helper: a name outside the four fixed attribute names is in
particular not one of the three positional parameter names. -/
theorem not_mem_reserved_of_not_mem_fixed {n : String}
    (h : n ∉ ["param_name", "param_vals", "system_params", "data_names"]) :
    n ∉ reservedNames := by
  intro hc
  apply h
  simp only [reservedNames, List.mem_cons, List.not_mem_nil, or_false] at hc
  rcases hc with h1 | h1 | h1 <;> simp [h1]

/-- C4 counterexample: the claim says construct-from-parts derives
`data_names` from `name_list` including when the target type is
`SpectrumData`.  But `SpectrumData.__init__` forwards no keyword
fields to `DataStore.__init__`: reconstructing a `SpectrumData` from a
file with dataset list `["energy_table"]` yields an object whose
`data_names` is empty, not `{"energy_table"}`. -/
theorem spectrumData_init_from_data_data_names_cex :
    SpectrumData._init_from_data
      [("param_name", Value.vStr "p"), ("param_vals", Value.vArr [])]
      ["energy_table"] [Value.vArr []]
      = some [("param_name", Value.vStr "p"), ("param_vals", Value.vArr []),
              ("system_params", Value.vDict []), ("data_names", Value.vNames []),
              ("energy_table", Value.vArr []), ("state_table", Value.vNone),
              ("matrixelem_table", Value.vNone)]
    ∧ Value.vNames [] ≠ Value.vNames ["energy_table"] := by
  refine ⟨rfl, ?_⟩
  intro h
  injection h with h1
  exact List.noConfusion h1

/-- C4 amended: for the base `DataStore` target,
`_init_from_data` builds the zipped `name → data` dict and calls the
constructor with it, so `data_names` is exactly the keys view of
`name_list` — provided `name_list` has no duplicates, `data_list` is
long enough, and no dataset is named after one of the four fixed
attributes; for the `SpectrumData` target, `data_names` is empty
instead. -/
theorem init_from_data_derives_data_names (md : Dict) (names : List String)
    (data : List Value) (pn pv : Value) (md1 md2 : Dict)
    (hp1 : dictPop md "param_name" = some (pn, md1))
    (hp2 : dictPop md1 "param_vals" = some (pv, md2))
    (hlen : names.length ≤ data.length)
    (hnd : names.Nodup)
    (hres : ∀ n ∈ names,
      n ∉ ["param_name", "param_vals", "system_params", "data_names"]) :
    ∃ s, DataStore._init_from_data md names data = some s
      ∧ dictLookup s "data_names" = some (Value.vNames names) := by
  have hzip := zipToDict_eq hnd hlen
  have hkeys : dictKeys (names.zip data) = names := by
    rw [show dictKeys (names.zip data) = (names.zip data).map Prod.fst from rfl]
    exact List.map_fst_zip _ _ hlen
  have hdnn : "data_names" ∉ dictKeys (names.zip data) := by
    rw [hkeys]
    intro hc
    exact hres _ hc (by simp)
  have hany : ((names.zip data).any (fun p => namesContains reservedNames p.1)) = false := by
    rw [List.any_eq_false]
    intro p hp
    have hmem := (List.of_mem_zip hp).1
    simp only [Bool.not_eq_true]
    exact namesContains_eq_false (not_mem_reserved_of_not_mem_fixed (hres p.1 hmem))
  simp only [DataStore._init_from_data, hp1, hp2, hzip]
  rw [DataStore.init, if_neg (by rw [hany]; exact Bool.false_ne_true)]
  refine ⟨_, rfl, ?_⟩
  rw [show ((names.zip data).foldl (fun acc p => dictSet acc p.1 p.2)
        [("param_name", pn), ("param_vals", pv), ("system_params", Value.vDict md2),
         ("data_names", Value.vNames (dictKeys (names.zip data)))])
      = dictUpdate
        [("param_name", pn), ("param_vals", pv), ("system_params", Value.vDict md2),
         ("data_names", Value.vNames (dictKeys (names.zip data)))] (names.zip data) from rfl]
  rw [dictUpdate_lookup_not_mem _ hdnn]
  rw [hkeys]
  rfl

/-- Witness for the amended C4. -/
theorem init_from_data_derives_data_names_witness :
    dictPop [("param_name", Value.vStr "p"), ("param_vals", Value.vArr []), ("x", Value.vInt 2)]
        "param_name" = some (Value.vStr "p", [("param_vals", Value.vArr []), ("x", Value.vInt 2)])
    ∧ dictPop [("param_vals", Value.vArr []), ("x", Value.vInt 2)] "param_vals"
        = some (Value.vArr [], [("x", Value.vInt 2)])
    ∧ (["a"] : List String).length ≤ ([Value.vInt 7] : List Value).length
    ∧ (["a"] : List String).Nodup
    ∧ (∀ n ∈ (["a"] : List String),
        n ∉ ["param_name", "param_vals", "system_params", "data_names"])
    ∧ ∃ s, DataStore._init_from_data
        [("param_name", Value.vStr "p"), ("param_vals", Value.vArr []), ("x", Value.vInt 2)]
        ["a"] [Value.vInt 7] = some s
      ∧ dictLookup s "data_names" = some (Value.vNames ["a"]) :=
  ⟨rfl, rfl, by decide, by decide, by decide,
   init_from_data_derives_data_names _ ["a"] [Value.vInt 7] _ _ _ _
     rfl rfl (by decide) (by decide) (by decide)⟩

/-- C8: `_serialize` writes exactly the datasets whose names pass the
`key in data_names` test and whose current value is not the absent
sentinel `None`; in particular a field holding `None` is excluded from
the written dataset-name list. -/
theorem serialize_names_iff_data_names_not_none (s : DataStore) (dn : Value)
    (md : Dict) (nlist : List String) (dlist : List Value) (n : String)
    (hnd : (dictKeys s).Nodup)
    (hdn : dictLookup s "data_names" = some dn)
    (hser : DataStore._serialize s = some (md, nlist, dlist)) :
    n ∈ nlist ↔ (memB dn n = true ∧ ∃ v, dictLookup s n = some v ∧ v ≠ Value.vNone) := by
  simp only [DataStore._serialize, Option.bind_eq_some] at hser
  obtain ⟨md0, hmd, dd, hdd, heq⟩ := hser
  simp only [DataStore._get_data_dict, hdn, Option.some_bind] at hdd
  split at hdd
  · injection hdd with hddEq
    simp only [Option.some.injEq, Prod.mk.injEq] at heq
    obtain ⟨hmdEq, hnlEq, hdlEq⟩ := heq
    rw [← hnlEq, ← hddEq]
    constructor
    · intro hmem
      rw [List.mem_map] at hmem
      obtain ⟨p, hp, hpn⟩ := hmem
      rw [List.mem_filter] at hp
      obtain ⟨hp1, hq⟩ := hp
      rw [List.mem_filter] at hp1
      obtain ⟨hps, hr⟩ := hp1
      subst hpn
      exact ⟨hr, p.2, (dictLookup_eq_some_iff_mem hnd).mpr hps,
        (value_not_none_iff p).mp hq⟩
    · rintro ⟨hmemB, v, hlk, hv⟩
      rw [List.mem_map]
      refine ⟨(n, v), ?_, rfl⟩
      rw [List.mem_filter]
      refine ⟨?_, (value_not_none_iff (n, v)).mpr hv⟩
      rw [List.mem_filter]
      exact ⟨(dictLookup_eq_some_iff_mem hnd).mp hlk, hmemB⟩
  · exact absurd hdd (by simp)

/-- Witness for C8: a store with fields `a` (absent, `None`) and `b`;
only `b` is written, and the characterization is instantiated at the
excluded name `a`. -/
theorem serialize_names_iff_data_names_not_none_witness :
    (dictKeys [("param_name", Value.vStr "p"), ("param_vals", Value.vArr [Value.vInt 1]),
       ("system_params", Value.vDict [("x", Value.vInt 2)]),
       ("data_names", Value.vNames ["a", "b"]), ("a", Value.vNone),
       ("b", Value.vInt 7)]).Nodup
    ∧ dictLookup [("param_name", Value.vStr "p"), ("param_vals", Value.vArr [Value.vInt 1]),
       ("system_params", Value.vDict [("x", Value.vInt 2)]),
       ("data_names", Value.vNames ["a", "b"]), ("a", Value.vNone),
       ("b", Value.vInt 7)] "data_names" = some (Value.vNames ["a", "b"])
    ∧ DataStore._serialize [("param_name", Value.vStr "p"), ("param_vals", Value.vArr [Value.vInt 1]),
       ("system_params", Value.vDict [("x", Value.vInt 2)]),
       ("data_names", Value.vNames ["a", "b"]), ("a", Value.vNone),
       ("b", Value.vInt 7)]
      = some ([("param_name", Value.vStr "p"), ("param_vals", Value.vArr [Value.vInt 1]),
               ("x", Value.vInt 2)], ["b"], [Value.vInt 7])
    ∧ (("a" ∈ (["b"] : List String))
        ↔ (memB (Value.vNames ["a", "b"]) "a" = true
           ∧ ∃ v, dictLookup [("param_name", Value.vStr "p"), ("param_vals", Value.vArr [Value.vInt 1]),
               ("system_params", Value.vDict [("x", Value.vInt 2)]),
               ("data_names", Value.vNames ["a", "b"]), ("a", Value.vNone),
               ("b", Value.vInt 7)] "a" = some v ∧ v ≠ Value.vNone)) := by
  refine ⟨by decide, rfl, ?_, ?_⟩
  · simp [DataStore._serialize, DataStore._get_metadata_dict, DataStore._get_data_dict,
          process_metadata, dictLookup, dictUpdate, dictSet, hasKey, namesContains,
          isContainer, memB, value_not_none, convert_to_ndarray]
  · exact serialize_names_iff_data_names_not_none
      [("param_name", Value.vStr "p"), ("param_vals", Value.vArr [Value.vInt 1]),
       ("system_params", Value.vDict [("x", Value.vInt 2)]),
       ("data_names", Value.vNames ["a", "b"]), ("a", Value.vNone),
       ("b", Value.vInt 7)]
      (Value.vNames ["a", "b"])
      [("param_name", Value.vStr "p"), ("param_vals", Value.vArr [Value.vInt 1]),
       ("x", Value.vInt 2)]
      ["b"] [Value.vInt 7] "a" (by decide) rfl
      (by
        simp [DataStore._serialize, DataStore._get_metadata_dict, DataStore._get_data_dict,
              process_metadata, dictLookup, dictUpdate, dictSet, hasKey, namesContains,
              isContainer, memB, value_not_none, convert_to_ndarray])

/-- C1: round-trip identity.  For a store built with a flat
`system_params` dict (no nested mappings, keys colliding neither with
each other nor with the fixed attribute names) and data fields that
are present (non-`None`, as numeric arrays are) and whose names avoid
the fixed attribute names, serializing and then constructing a new
instance from the resulting `(metadata_dict, name_list, data_list)`
triple reproduces the original object exactly — in particular its
`param_name`, `param_vals`, `system_params` and every data field. -/
theorem serialize_then_init_from_data_roundtrip (pn pv : Value) (sp kwargs : Dict)
    (s : DataStore)
    (hflat : ∀ p ∈ sp, p.2.isDictB = false)
    (hspnd : (dictKeys sp).Nodup)
    (hspk : ∀ k ∈ dictKeys sp, k ≠ "param_name" ∧ k ≠ "param_vals")
    (hknd : (dictKeys kwargs).Nodup)
    (hkk : ∀ k ∈ dictKeys kwargs,
      k ∉ ["param_name", "param_vals", "system_params", "data_names"])
    (hkv : ∀ p ∈ kwargs, p.2 ≠ Value.vNone)
    (hs : DataStore.init pn pv (Value.vDict sp) kwargs = some s) :
    ∃ md nlist dlist,
      DataStore._serialize s = some (md, nlist, dlist)
      ∧ DataStore._init_from_data md nlist dlist = some s := by
  have hany : (kwargs.any (fun p => namesContains reservedNames p.1)) = false := by
    rw [List.any_eq_false]
    intro p hp
    simp only [Bool.not_eq_true]
    exact namesContains_eq_false (not_mem_reserved_of_not_mem_fixed
      (hkk p.1 (List.mem_map_of_mem (fun q => q.1) hp)))
  rw [DataStore.init, if_neg (by rw [hany]; exact Bool.false_ne_true)] at hs
  have hdisj : ∀ k ∈ dictKeys kwargs, k ∉ dictKeys
      [("param_name", pn), ("param_vals", pv), ("system_params", Value.vDict sp),
       ("data_names", Value.vNames (dictKeys kwargs))] := fun k hk => hkk k hk
  have hsEq : s = [("param_name", pn), ("param_vals", pv),
      ("system_params", Value.vDict sp),
      ("data_names", Value.vNames (dictKeys kwargs))] ++ kwargs := by
    rw [← dictUpdate_append _ hdisj hknd]
    exact (Option.some_inj.mp hs).symm
  have hnp1 : "param_name" ∉ dictKeys kwargs := fun hc => (hkk _ hc) (by simp)
  have hnp2 : "param_vals" ∉ dictKeys kwargs := fun hc => (hkk _ hc) (by simp)
  have hnp3 : "system_params" ∉ dictKeys kwargs := fun hc => (hkk _ hc) (by simp)
  have hnp4 : "data_names" ∉ dictKeys kwargs := fun hc => (hkk _ hc) (by simp)
  have hpm : process_metadata sp = sp := process_metadata_flat hflat
  have hmd : DataStore._get_metadata_dict s
      = some (dictUpdate [("param_name", pn), ("param_vals", pv)] sp) := by
    rw [hsEq]
    show some (dictUpdate [("param_name", pn), ("param_vals", pv)] (process_metadata sp))
      = some (dictUpdate [("param_name", pn), ("param_vals", pv)] sp)
    rw [hpm]
  have hmd2 : dictUpdate [("param_name", pn), ("param_vals", pv)] sp
      = [("param_name", pn), ("param_vals", pv)] ++ sp := by
    apply dictUpdate_append
    · intro k hk hc
      have h2 := hspk k hk
      simp only [dictKeys, List.map_cons, List.map_nil, List.mem_cons,
        List.not_mem_nil, or_false] at hc
      rcases hc with hc | hc
      · exact h2.1 hc
      · exact h2.2 hc
    · exact hspnd
  have hdd : DataStore._get_data_dict s = some kwargs := by
    rw [hsEq]
    show some (([("param_name", pn), ("param_vals", pv),
        ("system_params", Value.vDict sp),
        ("data_names", Value.vNames (dictKeys kwargs))] ++ kwargs).filter
          (fun p => memB (Value.vNames (dictKeys kwargs)) p.1)) = some kwargs
    congr 1
    apply filter_append_keep_right
    · intro p hp
      simp only [List.mem_cons, List.not_mem_nil, or_false] at hp
      rcases hp with hp | hp | hp | hp <;> rw [hp] <;>
        first
        | exact namesContains_eq_false hnp1
        | exact namesContains_eq_false hnp2
        | exact namesContains_eq_false hnp3
        | exact namesContains_eq_false hnp4
    · intro p hp
      exact namesContains_iff.mpr (List.mem_map_of_mem (fun q => q.1) hp)
  have hwritten : kwargs.filter value_not_none = kwargs :=
    List.filter_eq_self.mpr (fun p hp => (value_not_none_iff p).mpr (hkv p hp))
  have hser : DataStore._serialize s
      = some (dictUpdate [("param_name", pn), ("param_vals", pv)] sp,
              dictKeys kwargs, kwargs.map (fun p => p.2)) := by
    simp only [DataStore._serialize, hmd, hdd, Option.some_bind]
    rw [hwritten]
    rfl
  have hspnn : "param_name" ∉ dictKeys sp := fun hc => (hspk _ hc).1 rfl
  have hspnv : "param_vals" ∉ dictKeys sp := fun hc => (hspk _ hc).2 rfl
  have hp1 : dictPop ([("param_name", pn), ("param_vals", pv)] ++ sp) "param_name"
      = some (pn, ("param_vals", pv) :: sp) := by
    rw [dictPop]
    rw [show dictLookup ([("param_name", pn), ("param_vals", pv)] ++ sp) "param_name"
          = some pn from rfl]
    rw [show dictErase ([("param_name", pn), ("param_vals", pv)] ++ sp) "param_name"
          = ("param_vals", pv) :: dictErase sp "param_name" from rfl]
    rw [dictErase_of_not_mem hspnn]
    rfl
  have hp2 : dictPop (("param_vals", pv) :: sp) "param_vals" = some (pv, sp) := by
    rw [dictPop]
    rw [show dictLookup (("param_vals", pv) :: sp) "param_vals" = some pv from rfl]
    rw [show dictErase (("param_vals", pv) :: sp) "param_vals"
          = dictErase sp "param_vals" from rfl]
    rw [dictErase_of_not_mem hspnv]
    rfl
  have hlen : (dictKeys kwargs).length ≤ (kwargs.map (fun p => p.2)).length := by
    simp [dictKeys]
  have hzip : zipToDict (dictKeys kwargs) (kwargs.map (fun p => p.2)) = some kwargs := by
    rw [zipToDict_eq hknd hlen, zip_keys_vals]
  have hback : DataStore._init_from_data
      (dictUpdate [("param_name", pn), ("param_vals", pv)] sp)
      (dictKeys kwargs) (kwargs.map (fun p => p.2)) = some s := by
    rw [hmd2]
    simp only [DataStore._init_from_data, hp1, hp2, hzip]
    rw [DataStore.init, if_neg (by rw [hany]; exact Bool.false_ne_true)]
    rw [Option.some_inj]
    rw [hsEq]
    exact dictUpdate_append _ hdisj hknd
  exact ⟨_, _, _, hser, hback⟩

/-- Witness for C1: `param_name = "p"`, one sweep value, flat
`system_params = {"x": 2}`, one data field `a`. -/
theorem serialize_then_init_from_data_roundtrip_witness :
    (∀ p ∈ ([("x", Value.vInt 2)] : Dict), p.2.isDictB = false)
    ∧ (dictKeys [("x", Value.vInt 2)]).Nodup
    ∧ (∀ k ∈ dictKeys [("x", Value.vInt 2)], k ≠ "param_name" ∧ k ≠ "param_vals")
    ∧ (dictKeys [("a", Value.vArr [Value.vInt 5])]).Nodup
    ∧ (∀ k ∈ dictKeys [("a", Value.vArr [Value.vInt 5])],
        k ∉ ["param_name", "param_vals", "system_params", "data_names"])
    ∧ (∀ p ∈ ([("a", Value.vArr [Value.vInt 5])] : Dict), p.2 ≠ Value.vNone)
    ∧ DataStore.init (Value.vStr "p") (Value.vArr [Value.vInt 1])
        (Value.vDict [("x", Value.vInt 2)]) [("a", Value.vArr [Value.vInt 5])]
      = some [("param_name", Value.vStr "p"), ("param_vals", Value.vArr [Value.vInt 1]),
              ("system_params", Value.vDict [("x", Value.vInt 2)]),
              ("data_names", Value.vNames ["a"]), ("a", Value.vArr [Value.vInt 5])]
    ∧ ∃ md nlist dlist,
        DataStore._serialize
          [("param_name", Value.vStr "p"), ("param_vals", Value.vArr [Value.vInt 1]),
           ("system_params", Value.vDict [("x", Value.vInt 2)]),
           ("data_names", Value.vNames ["a"]), ("a", Value.vArr [Value.vInt 5])]
          = some (md, nlist, dlist)
        ∧ DataStore._init_from_data md nlist dlist
          = some [("param_name", Value.vStr "p"), ("param_vals", Value.vArr [Value.vInt 1]),
                  ("system_params", Value.vDict [("x", Value.vInt 2)]),
                  ("data_names", Value.vNames ["a"]), ("a", Value.vArr [Value.vInt 5])] :=
  ⟨by decide, by decide, by decide, by decide, by decide,
   (by
     intro p hp
     rw [List.mem_singleton] at hp
     rw [hp]
     exact fun h => Value.noConfusion h),
   rfl,
   serialize_then_init_from_data_roundtrip (Value.vStr "p") (Value.vArr [Value.vInt 1])
     [("x", Value.vInt 2)] [("a", Value.vArr [Value.vInt 5])] _
     (by decide) (by decide) (by decide) (by decide) (by decide)
     (by
       intro p hp
       rw [List.mem_singleton] at hp
       rw [hp]
       exact fun h => Value.noConfusion h)
     rfl⟩
